import Mathlib

/-!
Shallow embedding of the email reply orchestrator in src/email_agent.py.

The embedding models the dynamically typed Python values flowing through
the pipeline (`PyVal`), the JSON recovery step of `_run_ai_agent`
(regex span extraction plus a JSON parser modelling `json.loads` on the
subset of JSON the program exchanges: objects, arrays, strings with the
common escapes, signed integers, booleans and null), the bounded retry
loop, and the routing and formatting logic of `main_agent_workflow`.
External collaborators (IMAP fetch, SMTP send, the Gemini client) are
modelled as inputs: the fetch result is an `Option` triple and the model
backend is an oracle giving each attempt either a transport failure or a
raw response text.  String primitives (`.lower()`, `.strip()`) are
modelled on ASCII, which covers every string the claims touch.
-/

set_option maxRecDepth 100000

/-- Python runtime values that can result from `json.loads` plus `None`. -/
inductive PyVal where
  | null : PyVal
  | bool : Bool → PyVal
  | int : Int → PyVal
  | str : String → PyVal
  | list : List PyVal → PyVal
  | dict : List (String × PyVal) → PyVal

/-- Python truthiness, as used by `if is_technical:` and `if not ai_output:`. -/
def PyVal.truthy : PyVal → Bool
  | PyVal.null => false
  | PyVal.bool b => b
  | PyVal.int n => decide (n ≠ 0)
  | PyVal.str s => decide (s ≠ "")
  | PyVal.list xs => !xs.isEmpty
  | PyVal.dict kvs => !kvs.isEmpty

/-- Python `dict.get(key, default)`.  The JSON parser keeps duplicate keys
in order, and Python dict insertion makes the last occurrence win, so the
lookup scans the reversed association list. -/
def dictGet (kvs : List (String × PyVal)) (key : String) (dflt : PyVal) : PyVal :=
  (kvs.reverse.lookup key).getD dflt

/-- ASCII model of Python `str.lower()` on a character list. -/
def lowerChars (cs : List Char) : List Char := cs.map Char.toLower

/-- ASCII model of Python `str.lower()`. -/
def pyLower (s : String) : String := String.mk (lowerChars s.data)

/-- ASCII whitespace recognised by Python `str.strip()`. -/
def wsChar (c : Char) : Bool :=
  c = ' ' || c = '\t' || c = '\n' || c = '\r' || c = '\x0b' || c = '\x0c'

/-- Python `str.strip()` on a character list: drop whitespace from both ends. -/
def pyStrip (cs : List Char) : List Char :=
  (((cs.dropWhile wsChar).reverse).dropWhile wsChar).reverse

/-- Remainder after the first literal closing angle bracket, i.e. the regex
fragment byte semantics of a non-greedy close for the class run in
`<[^>]+>`: the character class cannot cross a close bracket, so a match
always ends at the first close bracket after its start. -/
def afterClose (cs : List Char) : Option (List Char) :=
  match cs with
  | [] => Option.none
  | a :: r => if a = '>' then some r else afterClose r

/-- Given the text following a literal open angle bracket, `splitTag`
returns the remainder after a match of `[^>]+>` starting there, or none
when the regex `<[^>]+>` does not match at that open bracket. -/
def splitTag (cs : List Char) : Option (List Char) :=
  match cs with
  | [] => Option.none
  | a :: r => if a = '>' then Option.none else afterClose r

/-- Fuel-indexed worker for `stripTags`.  Any fuel at least the length of
the input gives the semantics of the regex substitution; the fuel only
makes the recursion structural so that concrete runs reduce by `decide`. -/
def stripTagsAux (fuel : Nat) (cs : List Char) : List Char :=
  match fuel with
  | 0 => cs
  | Nat.succ f =>
    match cs with
    | [] => []
    | c :: rest =>
      if c = '<' then
        match splitTag rest with
        | some tail => stripTagsAux f tail
        | Option.none => c :: stripTagsAux f rest
      else c :: stripTagsAux f rest

/-- Model of `re.sub(r'<[^>]+>', '', s)`: delete each leftmost
non-overlapping match of the tag pattern and keep every other character. -/
def stripTags (cs : List Char) : List Char := stripTagsAux cs.length cs

/-- Whether the text still contains a match of the tag pattern `<[^>]+>`. -/
def hasTag (cs : List Char) : Bool :=
  match cs with
  | [] => false
  | c :: rest =>
    if c = '<' then (splitTag rest).isSome || hasTag rest else hasTag rest

/-- Greeting allow-list of the salutation check in `main_agent_workflow`. -/
def greetingTokens : List (List Char) :=
  ["hello".data, "hi".data, "dear".data, "thank you".data]

/-- Model of `reply_draft.lower().startswith(("hello", "hi", "dear", "thank you"))`. -/
def startsWithGreeting (cs : List Char) : Bool :=
  greetingTokens.any (fun g => g.isPrefixOf (lowerChars cs))

/-- Literal salutation line prepended when no greeting is present. -/
def HELLO_LINE : List Char := "Hello,\n\n".data

/-- Formatting applied to the routed draft: strip angle-bracket tags, trim
whitespace, and prepend the salutation when no greeting starts the text. -/
def formatBody (cs : List Char) : List Char :=
  let t := pyStrip (stripTags cs)
  if startsWithGreeting t then t else HELLO_LINE ++ t

/-- The reply formatter on strings. -/
def format_reply (d : String) : String := String.mk (formatBody d.data)

/-- Index of the first occurrence of a character, if any. -/
def firstIdxOf (c : Char) (cs : List Char) : Option Nat :=
  match cs with
  | [] => Option.none
  | a :: rest => if a = c then some 0 else (firstIdxOf c rest).map (fun k => k + 1)

/-- Index of the last occurrence of a character, if any. -/
def lastIdxOf (c : Char) (cs : List Char) : Option Nat :=
  match cs with
  | [] => Option.none
  | a :: rest =>
    match lastIdxOf c rest with
    | some k => some (k + 1)
    | Option.none => if a = c then some 0 else Option.none

/-- Model of `re.search(r'\x7b.*\x7d', raw_content, re.DOTALL)`: the match
starts at the first open brace that still has a close brace after it, and
the greedy dot run makes it end at the last close brace of the text. -/
def extractSpan (cs : List Char) : Option (List Char) :=
  match cs with
  | [] => Option.none
  | c :: rest =>
    if c = '\x7b' then
      match lastIdxOf '\x7d' rest with
      | some k => some ('\x7b' :: rest.take (k + 1))
      | Option.none => extractSpan rest
    else extractSpan rest

/-- JSON insignificant whitespace. -/
def skipWs (cs : List Char) : List Char :=
  cs.dropWhile (fun c => c = ' ' || c = '\t' || c = '\n' || c = '\r')

/-- Decode one JSON string escape; the rare `\u` form is outside the
modelled subset. -/
def escChar (e : Char) : Option Char :=
  if e = '"' then some '"'
  else if e = '\\' then some '\\'
  else if e = '/' then some '/'
  else if e = 'n' then some '\n'
  else if e = 't' then some '\t'
  else if e = 'r' then some '\r'
  else if e = 'b' then some (Char.ofNat 8)
  else if e = 'f' then some (Char.ofNat 12)
  else Option.none

/-- Parse the body of a JSON string after its opening quote, returning the
decoded characters and the remainder after the closing quote. -/
def parseStrChars (cs : List Char) : Option (List Char × List Char) :=
  match cs with
  | [] => Option.none
  | c :: rest =>
    if c = '"' then some ([], rest)
    else if c = '\\' then
      match rest with
      | [] => Option.none
      | e :: rest2 =>
        match escChar e with
        | Option.none => Option.none
        | some ch =>
          match parseStrChars rest2 with
          | Option.none => Option.none
          | some (s, r) => some (ch :: s, r)
    else
      match parseStrChars rest with
      | Option.none => Option.none
      | some (s, r) => some (c :: s, r)

/-- Digit run to a natural number. -/
def digitsToNat (ds : List Char) : Nat :=
  ds.foldl (fun a c => a * 10 + (c.toNat - 48)) 0

/-- Parse a JSON number.  The modelled subset is optionally signed
integers; fractional or exponent forms make the parse fail. -/
def parseNum (cs : List Char) : Option (PyVal × List Char) :=
  let p := match cs with
    | c :: r => if c = '-' then (true, r) else (false, cs)
    | [] => (false, cs)
  let ds := p.2.takeWhile Char.isDigit
  let rest := p.2.dropWhile Char.isDigit
  if ds.isEmpty then Option.none
  else
    let n : Int := if p.1 then -(digitsToNat ds : Int) else (digitsToNat ds : Int)
    match rest with
    | c :: _ =>
      if c = '.' || c = 'e' || c = 'E' then Option.none else some (PyVal.int n, rest)
    | [] => some (PyVal.int n, rest)

/-- Consume an exact literal. -/
def dropLit (lit : List Char) (cs : List Char) : Option (List Char) :=
  match lit, cs with
  | [], rest => some rest
  | a :: l, b :: cs2 => if a = b then dropLit l cs2 else Option.none
  | _ :: _, [] => Option.none

mutual

/-- Recursive-descent JSON value, modelling `json.loads` on the subset the
program exchanges.  Fuel bounds the nesting depth; the wrapper supplies
fuel larger than the text length, which always suffices because every
nesting level consumes at least one character. -/
def parseValue (fuel : Nat) (cs : List Char) : Option (PyVal × List Char) :=
  match fuel with
  | 0 => Option.none
  | Nat.succ f =>
    let t := skipWs cs
    match dropLit "true".data t with
    | some r => some (PyVal.bool true, r)
    | Option.none =>
    match dropLit "false".data t with
    | some r => some (PyVal.bool false, r)
    | Option.none =>
    match dropLit "null".data t with
    | some r => some (PyVal.null, r)
    | Option.none =>
    match t with
    | [] => Option.none
    | c :: rest =>
      if c = '"' then
        match parseStrChars rest with
        | some (s, r) => some (PyVal.str (String.mk s), r)
        | Option.none => Option.none
      else if c = '\x7b' then
        match skipWs rest with
        | '\x7d' :: r2 => some (PyVal.dict [], r2)
        | _ =>
          match parseMembers f rest with
          | some (kvs, r) => some (PyVal.dict kvs, r)
          | Option.none => Option.none
      else if c = '[' then
        match skipWs rest with
        | ']' :: r2 => some (PyVal.list [], r2)
        | _ =>
          match parseElems f rest with
          | some (vs, r) => some (PyVal.list vs, r)
          | Option.none => Option.none
      else parseNum t

/-- Members of a JSON object after its opening brace (nonempty case). -/
def parseMembers (fuel : Nat) (cs : List Char) :
    Option (List (String × PyVal) × List Char) :=
  match fuel with
  | 0 => Option.none
  | Nat.succ f =>
    match skipWs cs with
    | '"' :: r1 =>
      match parseStrChars r1 with
      | Option.none => Option.none
      | some (k, r2) =>
        match skipWs r2 with
        | ':' :: r3 =>
          match parseValue f r3 with
          | Option.none => Option.none
          | some (v, r4) =>
            match skipWs r4 with
            | ',' :: r5 =>
              match parseMembers f r5 with
              | some (kvs, r6) => some ((String.mk k, v) :: kvs, r6)
              | Option.none => Option.none
            | '\x7d' :: r5 => some ([(String.mk k, v)], r5)
            | _ => Option.none
        | _ => Option.none
    | _ => Option.none

/-- Elements of a JSON array after its opening bracket (nonempty case). -/
def parseElems (fuel : Nat) (cs : List Char) : Option (List PyVal × List Char) :=
  match fuel with
  | 0 => Option.none
  | Nat.succ f =>
    match parseValue f cs with
    | Option.none => Option.none
    | some (v, r1) =>
      match skipWs r1 with
      | ',' :: r2 =>
        match parseElems f r2 with
        | some (vs, r3) => some (v :: vs, r3)
        | Option.none => Option.none
      | ']' :: r2 => some ([v], r2)
      | _ => Option.none

end

/-- Model of `json.loads` on the modelled subset: parse one value and
require only whitespace to remain. -/
def json_loads (s : String) : Option PyVal :=
  match parseValue (s.data.length + 1) s.data with
  | some (v, rest) => if skipWs rest = [] then some v else Option.none
  | Option.none => Option.none

/-- Outcome of one backend call in `_run_ai_agent`: either the API call
raises (transport or HTTP failure, timeout), or a raw response text
arrives.  The backend is external, so a run is parameterised by an oracle
assigning an outcome to each attempt index. -/
inductive AttemptResult where
  | failure : AttemptResult
  | success : String → AttemptResult

/-- What one loop iteration of `_run_ai_agent` produces from its attempt:
`some` parsed value on a successful parse, and `none` whenever the
iteration ends in the `except` handler — transport failure, no brace span
in the stripped text (the raised `ValueError`), or an unparseable span
(the `json.loads` exception). -/
def attemptOutcome : AttemptResult → Option PyVal
  | AttemptResult.failure => Option.none
  | AttemptResult.success raw =>
    match extractSpan (pyStrip raw.data) with
    | Option.none => Option.none
    | some span => json_loads (String.mk span)

/-- Observable trace of the retry loop: final value, the sleeps performed
(in seconds, in order), and how many attempts were made. -/
structure InvokeTrace where
  result : Option PyVal
  sleeps : List Nat
  attempts : Nat

/-- The `for i in range(3)` retry loop of `_run_ai_agent`, unrolled from
iteration `i` with structural fuel (the source loop has `fuel + i = 3`). -/
def runLoopAux (o : Nat → AttemptResult) (fuel : Nat) (i : Nat) : InvokeTrace :=
  match fuel with
  | 0 => ⟨Option.none, [], 0⟩
  | Nat.succ f =>
    match attemptOutcome (o i) with
    | some v => ⟨some v, [], 1⟩
    | Option.none =>
      if i < 2 then
        let rest := runLoopAux o f (i + 1)
        ⟨rest.result, 2 ^ (i + 1) :: rest.sleeps, rest.attempts + 1⟩
      else ⟨Option.none, [], 1⟩

/-- `_run_ai_agent`: at most three attempts, exponential backoff between
failed attempts, `none` when all attempts fail.  The environment-dependent
guard on the Gemini client initialisation is configuration outside the
modelled core and is taken as satisfied. -/
def run_ai_agent (o : Nat → AttemptResult) : InvokeTrace := runLoopAux o 3 0

/-- Safe-default reply text of `main_agent_workflow`. -/
def SAFE_DEFAULT_REPLY : String :=
  "Thank you for reaching out. I\x27m currently reviewing your inquiry and will send a proper, detailed response shortly. Best regards,\nAkash BV"

/-- Normalisation of the two boolean fields: a string is coerced by
comparing its lowercase form with the text true; every other value is
returned unchanged. -/
def coerceBool (v : PyVal) : PyVal :=
  match v with
  | PyVal.str s => PyVal.bool (pyLower s == "true")
  | w => w

/-- The decision table of `main_agent_workflow`, written over the values
the normaliser actually produces; branch conditions are Python
truthiness. -/
def reply_router (is_technical request_meeting simple nontech meeting : PyVal) : PyVal :=
  if is_technical.truthy then
    if request_meeting.truthy then meeting else simple
  else nontech

/-- Observable outcome of one run of `main_agent_workflow`. -/
inductive RunResult where
  | noMessage : RunResult
  | classifierFailed : RunResult
  | typeError : RunResult
  | sent : String → String → String → RunResult
deriving DecidableEq

/-- The pipeline of `main_agent_workflow`.  The mailbox fetch is external
input: `none` models the `(None, None, None)` return, and the falsy check
on the sender also exits on an empty sender string.  `noMessage` and
`classifierFailed` are the two early `return` paths, `typeError` is the
uncaught exception raised by `re.sub` on a non-string routed draft, and
`sent to subject body` records the attempted SMTP delivery. -/
def main_agent_workflow (fetched : Option (String × String × String))
    (o : Nat → AttemptResult) : RunResult :=
  match fetched with
  | Option.none => RunResult.noMessage
  | some (from_email, subject, _body) =>
    if from_email = "" then RunResult.noMessage
    else
      match (run_ai_agent o).result with
      | Option.none => RunResult.classifierFailed
      | some ai_output =>
        if ai_output.truthy = false then RunResult.classifierFailed
        else
          match ai_output with
          | PyVal.dict kvs =>
            let is_technical := coerceBool (dictGet kvs "is_technical" (PyVal.bool false))
            let request_meeting := coerceBool (dictGet kvs "request_meeting" (PyVal.bool false))
            let simple_reply_draft := dictGet kvs "simple_reply_draft" (PyVal.str SAFE_DEFAULT_REPLY)
            let non_technical_reply_draft :=
              dictGet kvs "non_technical_reply_draft" (PyVal.str SAFE_DEFAULT_REPLY)
            let meeting_suggestion_draft :=
              dictGet kvs "meeting_suggestion_draft" (PyVal.str SAFE_DEFAULT_REPLY)
            match reply_router is_technical request_meeting simple_reply_draft
                non_technical_reply_draft meeting_suggestion_draft with
            | PyVal.str d =>
              RunResult.sent from_email ("Re: " ++ subject) (format_reply d)
            | _ => RunResult.typeError
          | _ => RunResult.typeError

/-- Oracle on which every attempt raises a transport failure. -/
def failOracle : Nat → AttemptResult := fun _ => AttemptResult.failure

/-- Raw response with a complete classification object between prose. -/
def goodRaw : String :=
  "here you go: \x7b\"is_technical\": true, \"request_meeting\": false, \"simple_reply_draft\": \"All good.\", \"non_technical_reply_draft\": \"N\", \"meeting_suggestion_draft\": \"M\"\x7d thanks"

/-- Oracle whose every attempt returns `goodRaw`. -/
def goodOracle : Nat → AttemptResult := fun _ => AttemptResult.success goodRaw

/-- The object enclosed in `goodRaw`, in field order. -/
def goodObj : List (String × PyVal) :=
  [("is_technical", PyVal.bool true), ("request_meeting", PyVal.bool false),
   ("simple_reply_draft", PyVal.str "All good."),
   ("non_technical_reply_draft", PyVal.str "N"),
   ("meeting_suggestion_draft", PyVal.str "M")]

/-- Raw response containing no JSON object at all. -/
def noJsonRaw : String := "the model replied with no structured payload at all"

/-- Oracle whose first attempt yields a response without JSON and whose
later attempts fail at the transport level. -/
def c6BadOracle : Nat → AttemptResult :=
  fun i => if i = 0 then AttemptResult.success noJsonRaw else failOracle i

/-- Oracle identical to `c6BadOracle` except that the first attempt is a
transport failure. -/
def c6FailOracle : Nat → AttemptResult :=
  fun i => if i = 0 then AttemptResult.failure else failOracle i

/-- Parsed object whose boolean field carries the JSON number one. -/
def c2Obj : List (String × PyVal) := [("is_technical", PyVal.int 1)]

/-- Raw response whose routed draft field is JSON null. -/
def c3Raw : String :=
  "\x7b\"is_technical\": true, \"request_meeting\": false, \"simple_reply_draft\": null\x7d"

/-- Oracle whose every attempt returns `c3Raw`. -/
def c3Oracle : Nat → AttemptResult := fun _ => AttemptResult.success c3Raw

/-- Raw response whose routed draft is present but the empty string. -/
def c10Raw : String :=
  "\x7b\"is_technical\": true, \"request_meeting\": false, \"simple_reply_draft\": \"\", \"non_technical_reply_draft\": \"N\", \"meeting_suggestion_draft\": \"M\"\x7d"

/-- Oracle whose every attempt returns `c10Raw`. -/
def c10Oracle : Nat → AttemptResult := fun _ => AttemptResult.success c10Raw

theorem afterClose_length {cs t : List Char} (h : afterClose cs = some t) :
    t.length < cs.length := by
  induction cs with
  | nil => simp [afterClose] at h
  | cons a r ih =>
    simp only [afterClose] at h
    split at h
    · cases h
      exact Nat.lt_succ_self _
    · exact Nat.lt_trans (ih h) (Nat.lt_succ_self _)

theorem splitTag_length {cs t : List Char} (h : splitTag cs = some t) :
    t.length < cs.length := by
  cases cs with
  | nil => simp [splitTag] at h
  | cons a r =>
    simp only [splitTag] at h
    split at h
    · cases h
    · exact Nat.lt_trans (afterClose_length h) (Nat.lt_succ_self _)

theorem stripTagsAux_fuel_irrel :
    ∀ {f1 f2 : Nat} (cs : List Char), cs.length ≤ f1 → cs.length ≤ f2 →
      stripTagsAux f1 cs = stripTagsAux f2 cs := by
  intro f1
  induction f1 with
  | zero =>
    intro f2 cs h1 _
    have hnil : cs = [] := List.length_eq_zero.mp (Nat.le_zero.mp h1)
    subst hnil
    cases f2 <;> rfl
  | succ f ih =>
    intro f2 cs h1 h2
    cases cs with
    | nil => cases f2 <;> rfl
    | cons c rest =>
      cases f2 with
      | zero => exact absurd h2 (by simp)
      | succ g =>
        have hr1 : rest.length ≤ f := by simpa using Nat.succ_le_succ_iff.mp h1
        have hr2 : rest.length ≤ g := by simpa using Nat.succ_le_succ_iff.mp h2
        simp only [stripTagsAux]
        by_cases hc : c = '<'
        · simp only [hc, if_pos rfl]
          cases hsp : splitTag rest with
          | none => simp [ih rest hr1 hr2]
          | some tail =>
            have hlt := splitTag_length hsp
            exact ih tail (Nat.le_of_lt (Nat.lt_of_lt_of_le hlt hr1))
              (Nat.le_of_lt (Nat.lt_of_lt_of_le hlt hr2))
        · simp [hc, ih rest hr1 hr2]

theorem isSome_false_eq_none {α : Type} {x : Option α} (h : x.isSome = false) :
    x = Option.none := by
  cases x with
  | none => rfl
  | some a => simp [Option.isSome] at h

theorem afterClose_none_iff {cs : List Char} :
    afterClose cs = Option.none ↔ '>' ∉ cs := by
  induction cs with
  | nil => simp [afterClose]
  | cons a r ih =>
    simp only [afterClose]
    by_cases h : a = '>'
    · subst h
      simp
    · rw [if_neg h, ih, List.mem_cons, not_or]
      constructor
      · intro hr
        exact ⟨fun hh => h hh.symm, hr⟩
      · intro hp
        exact hp.2

theorem afterClose_subset {cs t : List Char} (h : afterClose cs = some t) :
    ∀ {a : Char}, a ∈ t → a ∈ cs := by
  induction cs with
  | nil => simp [afterClose] at h
  | cons b r ih =>
    simp only [afterClose] at h
    split at h
    · cases h
      intro a ha
      exact List.mem_cons_of_mem _ ha
    · intro a ha
      exact List.mem_cons_of_mem _ (ih h ha)

theorem splitTag_subset {cs t : List Char} (h : splitTag cs = some t) :
    ∀ {a : Char}, a ∈ t → a ∈ cs := by
  cases cs with
  | nil => simp [splitTag] at h
  | cons b r =>
    simp only [splitTag] at h
    split at h
    · cases h
    · intro a ha
      exact List.mem_cons_of_mem _ (afterClose_subset h ha)

theorem splitTag_none_of_not_mem {cs : List Char} (h : '>' ∉ cs) :
    splitTag cs = Option.none := by
  cases cs with
  | nil => rfl
  | cons b r =>
    simp only [splitTag]
    by_cases hb : b = '>'
    · rw [if_pos hb]
    · rw [if_neg hb]
      exact afterClose_none_iff.mpr (fun hr => h (List.mem_cons_of_mem _ hr))

theorem splitTag_append_none {l l2 : List Char}
    (h : splitTag (l ++ l2) = Option.none) : splitTag l = Option.none := by
  cases l with
  | nil => rfl
  | cons a r =>
    simp only [List.cons_append, splitTag] at h ⊢
    by_cases ha : a = '>'
    · rw [if_pos ha]
    · rw [if_neg ha] at h ⊢
      have hmem := afterClose_none_iff.mp h
      exact afterClose_none_iff.mpr (fun hr => hmem (List.mem_append_left _ hr))

theorem mem_stripTagsAux {fuel : Nat} {cs : List Char} {a : Char}
    (h : a ∈ stripTagsAux fuel cs) : a ∈ cs := by
  induction fuel generalizing cs with
  | zero => exact h
  | succ f ih =>
    cases cs with
    | nil => simp [stripTagsAux] at h
    | cons c rest =>
      simp only [stripTagsAux] at h
      by_cases hc : c = '<'
      · rw [if_pos hc] at h
        cases hsp : splitTag rest with
        | none =>
          rw [hsp] at h
          rcases List.mem_cons.mp h with h1 | h2
          · exact h1 ▸ List.mem_cons_self _ _
          · exact List.mem_cons_of_mem _ (ih h2)
        | some tail =>
          rw [hsp] at h
          exact List.mem_cons_of_mem _ (splitTag_subset hsp (ih h))
      · rw [if_neg hc] at h
        rcases List.mem_cons.mp h with h1 | h2
        · exact h1 ▸ List.mem_cons_self _ _
        · exact List.mem_cons_of_mem _ (ih h2)

theorem splitTag_stripTagsAux {fuel : Nat} {cs : List Char}
    (h : splitTag cs = Option.none) :
    splitTag (stripTagsAux fuel cs) = Option.none := by
  cases fuel with
  | zero => exact h
  | succ f =>
    cases cs with
    | nil => rfl
    | cons a r =>
      simp only [splitTag] at h
      simp only [stripTagsAux]
      by_cases ha : a = '>'
      · have hne : a ≠ '<' := by
          subst ha
          decide
        rw [if_neg hne]
        simp [splitTag, ha]
      · rw [if_neg ha] at h
        have hmem : '>' ∉ r := afterClose_none_iff.mp h
        have hmem2 : '>' ∉ stripTagsAux f r := fun hx => hmem (mem_stripTagsAux hx)
        by_cases hlt : a = '<'
        · rw [if_pos hlt, splitTag_none_of_not_mem hmem]
          simp only [splitTag]
          rw [if_neg (by rw [hlt]; decide)]
          exact afterClose_none_iff.mpr hmem2
        · rw [if_neg hlt]
          simp only [splitTag]
          rw [if_neg ha]
          exact afterClose_none_iff.mpr hmem2

theorem hasTag_stripTagsAux {fuel : Nat} {cs : List Char}
    (hle : cs.length ≤ fuel) : hasTag (stripTagsAux fuel cs) = false := by
  induction fuel generalizing cs with
  | zero =>
    have : cs = [] := List.length_eq_zero.mp (Nat.le_zero.mp hle)
    subst this
    rfl
  | succ f ih =>
    cases cs with
    | nil => rfl
    | cons c rest =>
      have hr : rest.length ≤ f := by simpa using Nat.succ_le_succ_iff.mp hle
      simp only [stripTagsAux]
      by_cases hc : c = '<'
      · rw [if_pos hc]
        cases hsp : splitTag rest with
        | none =>
          have h1 := @splitTag_stripTagsAux f rest hsp
          simp [hasTag, hc, h1, ih hr]
        | some tail =>
          exact ih (Nat.le_of_lt (Nat.lt_of_lt_of_le (splitTag_length hsp) hr))
      · rw [if_neg hc]
        simp [hasTag, hc, ih hr]

theorem stripTagsAux_of_hasTag_false {fuel : Nat} {cs : List Char}
    (h : hasTag cs = false) : stripTagsAux fuel cs = cs := by
  induction fuel generalizing cs with
  | zero => rfl
  | succ f ih =>
    cases cs with
    | nil => rfl
    | cons c rest =>
      simp only [hasTag] at h
      simp only [stripTagsAux]
      by_cases hc : c = '<'
      · rw [if_pos hc] at h ⊢
        rcases Bool.or_eq_false_iff.mp h with ⟨h1, h2⟩
        rw [isSome_false_eq_none h1, ih h2]
      · rw [if_neg hc] at h ⊢
        rw [ih h]

theorem hasTag_stripTags (cs : List Char) : hasTag (stripTags cs) = false :=
  hasTag_stripTagsAux (Nat.le_refl _)

theorem stripTags_of_hasTag_false {cs : List Char} (h : hasTag cs = false) :
    stripTags cs = cs :=
  stripTagsAux_of_hasTag_false h

theorem hasTag_append_left {l1 l2 : List Char}
    (h : hasTag (l1 ++ l2) = false) : hasTag l1 = false := by
  induction l1 with
  | nil => rfl
  | cons c rest ih =>
    simp only [List.cons_append, hasTag] at h ⊢
    by_cases hc : c = '<'
    · rw [if_pos hc] at h ⊢
      rcases Bool.or_eq_false_iff.mp h with ⟨h1, h2⟩
      have h3 := splitTag_append_none (isSome_false_eq_none h1)
      simp [h3, ih h2]
    · rw [if_neg hc] at h ⊢
      exact ih h

theorem hasTag_append_right {l1 l2 : List Char}
    (h : hasTag (l1 ++ l2) = false) : hasTag l2 = false := by
  induction l1 with
  | nil => exact h
  | cons c rest ih =>
    simp only [List.cons_append, hasTag] at h
    by_cases hc : c = '<'
    · rw [if_pos hc] at h
      exact ih (Bool.or_eq_false_iff.mp h).2
    · rw [if_neg hc] at h
      exact ih h

theorem hasTag_append_of_no_open {l1 l2 : List Char}
    (h : ∀ c ∈ l1, c ≠ '<') : hasTag (l1 ++ l2) = hasTag l2 := by
  induction l1 with
  | nil => rfl
  | cons c rest ih =>
    simp only [List.cons_append, hasTag]
    rw [if_neg (h c (List.mem_cons_self _ _))]
    exact ih (fun a ha => h a (List.mem_cons_of_mem _ ha))

theorem dropWhile_self (p : Char → Bool) (l : List Char) :
    (l.dropWhile p).dropWhile p = l.dropWhile p := by
  induction l with
  | nil => rfl
  | cons a r ih =>
    by_cases h : p a = true
    · rw [List.dropWhile_cons_of_pos h, ih]
    · rw [List.dropWhile_cons_of_neg h, List.dropWhile_cons_of_neg h]

theorem dropWhile_cons_head {p : Char → Bool} {l t : List Char} {a : Char}
    (h : l.dropWhile p = a :: t) : p a = false := by
  induction l with
  | nil => simp at h
  | cons b r ih =>
    by_cases hb : p b = true
    · rw [List.dropWhile_cons_of_pos hb] at h
      exact ih h
    · rw [List.dropWhile_cons_of_neg hb] at h
      cases h
      simpa using hb

theorem dropWhile_eq_pyStrip_append (l : List Char) :
    l.dropWhile wsChar
      = pyStrip l ++ ((l.dropWhile wsChar).reverse.takeWhile wsChar).reverse := by
  conv_lhs => rw [← List.reverse_reverse (l.dropWhile wsChar),
    ← List.takeWhile_append_dropWhile (p := wsChar) (l := (l.dropWhile wsChar).reverse),
    List.reverse_append]
  rfl

theorem pyStrip_head_false {l t : List Char} {a : Char}
    (h : pyStrip l = a :: t) : wsChar a = false := by
  have hd := dropWhile_eq_pyStrip_append l
  rw [h, List.cons_append] at hd
  exact dropWhile_cons_head hd

theorem pyStrip_reverse_eq (l : List Char) :
    (pyStrip l).reverse = (l.dropWhile wsChar).reverse.dropWhile wsChar := by
  rw [pyStrip, List.reverse_reverse]

theorem dropWhile_pyStrip (l : List Char) :
    (pyStrip l).dropWhile wsChar = pyStrip l := by
  cases h : pyStrip l with
  | nil => rfl
  | cons a t => exact List.dropWhile_cons_of_neg (by simp [pyStrip_head_false h])

theorem pyStrip_idem (l : List Char) : pyStrip (pyStrip l) = pyStrip l := by
  rw [pyStrip, dropWhile_pyStrip, pyStrip_reverse_eq, dropWhile_self,
    ← pyStrip_reverse_eq, List.reverse_reverse]

theorem pyStrip_hello {x : List Char} (hne : pyStrip x ≠ []) :
    pyStrip (HELLO_LINE ++ pyStrip x) = HELLO_LINE ++ pyStrip x := by
  have hfront : (HELLO_LINE ++ pyStrip x).dropWhile wsChar = HELLO_LINE ++ pyStrip x := by
    have : HELLO_LINE ++ pyStrip x = 'H' :: ("ello,\n\n".data ++ pyStrip x) := rfl
    rw [this]
    exact List.dropWhile_cons_of_neg (by decide)
  have hback : ((HELLO_LINE ++ pyStrip x).reverse).dropWhile wsChar
      = (HELLO_LINE ++ pyStrip x).reverse := by
    rw [List.reverse_append]
    cases hrev : (pyStrip x).reverse with
    | nil => exact absurd (by simpa using hrev) hne
    | cons a t =>
      have ha : wsChar a = false := by
        have := pyStrip_reverse_eq x
        rw [hrev] at this
        exact dropWhile_cons_head this.symm
      rw [List.cons_append]
      exact List.dropWhile_cons_of_neg (by simp [ha])
  rw [pyStrip, hfront, hback, List.reverse_reverse]

theorem hasTag_pyStrip {l : List Char} (h : hasTag l = false) :
    hasTag (pyStrip l) = false := by
  have h1 : hasTag (l.dropWhile wsChar) = false := by
    have hsplit : l.takeWhile wsChar ++ l.dropWhile wsChar = l :=
      List.takeWhile_append_dropWhile wsChar l
    rw [← hsplit] at h
    exact hasTag_append_right h
  rw [dropWhile_eq_pyStrip_append l] at h1
  exact hasTag_append_left h1

theorem isPrefixOf_append {l1 l2 r : List Char} (h : l1.isPrefixOf l2 = true) :
    l1.isPrefixOf (l2 ++ r) = true := by
  induction l1 generalizing l2 with
  | nil => simp [List.isPrefixOf]
  | cons a t ih =>
    cases l2 with
    | nil => simp [List.isPrefixOf] at h
    | cons b t2 =>
      simp only [List.isPrefixOf, List.cons_append, Bool.and_eq_true] at h ⊢
      exact ⟨h.1, ih h.2⟩

theorem startsWithGreeting_hello (t : List Char) :
    startsWithGreeting (HELLO_LINE ++ t) = true := by
  have hmap : lowerChars (HELLO_LINE ++ t) = "hello,\n\n".data ++ lowerChars t := by
    have hlow : lowerChars HELLO_LINE = "hello,\n\n".data := by decide
    rw [lowerChars, List.map_append]
    rw [lowerChars] at hlow
    rw [hlow]
    rfl
  have hpre : "hello".data.isPrefixOf ("hello,\n\n".data ++ lowerChars t) = true :=
    isPrefixOf_append (by decide)
  simp [startsWithGreeting, greetingTokens, hmap, hpre]

theorem hasTag_formatBody (cs : List Char) : hasTag (formatBody cs) = false := by
  have ht : hasTag (pyStrip (stripTags cs)) = false :=
    hasTag_pyStrip (hasTag_stripTags cs)
  unfold formatBody
  by_cases h : startsWithGreeting (pyStrip (stripTags cs)) = true
  · rw [if_pos h]
    exact ht
  · rw [if_neg h, hasTag_append_of_no_open (by decide)]
    exact ht

theorem formatBody_ne_nil (cs : List Char) : formatBody cs ≠ [] := by
  unfold formatBody
  by_cases h : startsWithGreeting (pyStrip (stripTags cs)) = true
  · rw [if_pos h]
    intro hnil
    rw [hnil] at h
    simp [startsWithGreeting, greetingTokens, lowerChars, List.isPrefixOf] at h
  · rw [if_neg h]
    simp [HELLO_LINE]

theorem formatBody_idem {cs : List Char} (hne : pyStrip (stripTags cs) ≠ []) :
    formatBody (formatBody cs) = formatBody cs := by
  have hstrip : stripTags (formatBody cs) = formatBody cs :=
    stripTags_of_hasTag_false (hasTag_formatBody cs)
  have htrim : pyStrip (formatBody cs) = formatBody cs := by
    unfold formatBody
    by_cases h : startsWithGreeting (pyStrip (stripTags cs)) = true
    · rw [if_pos h]
      exact pyStrip_idem _
    · rw [if_neg h]
      exact pyStrip_hello hne
  have hgreet : startsWithGreeting (formatBody cs) = true := by
    unfold formatBody
    by_cases h : startsWithGreeting (pyStrip (stripTags cs)) = true
    · rw [if_pos h]
      exact h
    · rw [if_neg h]
      exact startsWithGreeting_hello _
  conv_lhs => rw [formatBody]
  rw [hstrip, htrim, if_pos hgreet]

theorem extractSpan_eq {cs : List Char} :
    ∀ {i j : Nat}, firstIdxOf '\x7b' cs = some i →
      lastIdxOf '\x7d' cs = some j → i < j →
      extractSpan cs = some ((cs.drop i).take (j - i + 1)) := by
  induction cs with
  | nil =>
    intro i j hi _ _
    simp [firstIdxOf] at hi
  | cons a rest ih =>
    intro i j hi hj hij
    simp only [firstIdxOf] at hi
    by_cases ha : a = '\x7b'
    · subst ha
      rw [if_pos rfl] at hi
      cases hi
      cases hlast : lastIdxOf '\x7d' rest with
      | none =>
        simp only [lastIdxOf, hlast] at hj
        rw [if_neg (by decide)] at hj
        exact Option.noConfusion hj
      | some k =>
        simp only [lastIdxOf, hlast] at hj
        cases hj
        simp only [extractSpan, hlast, if_pos rfl]
        have harith : k + 1 - 0 + 1 = k + 2 := by omega
        rw [List.drop_zero, harith, List.take_succ_cons]
        simp
    · rw [if_neg ha] at hi
      cases hfr : firstIdxOf '\x7b' rest with
      | none =>
        rw [hfr] at hi
        cases hi
      | some i0 =>
        rw [hfr] at hi
        simp only [Option.map_some'] at hi
        cases hi
        cases hlast : lastIdxOf '\x7d' rest with
        | none =>
          simp only [lastIdxOf, hlast] at hj
          by_cases had : a = '\x7d'
          · rw [if_pos had] at hj
            cases hj
            exact absurd hij (by omega)
          · rw [if_neg had] at hj
            exact Option.noConfusion hj
        | some k =>
          simp only [lastIdxOf, hlast] at hj
          cases hj
          simp only [extractSpan, if_neg ha]
          rw [ih hfr hlast (by omega)]
          have harith : k + 1 - (i0 + 1) = k - i0 := by omega
          rw [List.drop_succ_cons, harith]

theorem runLoopAux_attempts_le (o : Nat → AttemptResult) (fuel i : Nat) :
    (runLoopAux o fuel i).attempts ≤ fuel := by
  induction fuel generalizing i with
  | zero => exact Nat.le_refl 0
  | succ f ih =>
    simp only [runLoopAux]
    cases attemptOutcome (o i) with
    | some v => exact Nat.succ_le_succ (Nat.zero_le f)
    | none =>
      by_cases h2 : i < 2
      · rw [if_pos h2]
        exact Nat.succ_le_succ (ih (i + 1))
      · rw [if_neg h2]
        exact Nat.succ_le_succ (Nat.zero_le f)

theorem runLoopAux_congr {o1 o2 : Nat → AttemptResult}
    (h : ∀ i, attemptOutcome (o1 i) = attemptOutcome (o2 i)) :
    ∀ fuel i, runLoopAux o1 fuel i = runLoopAux o2 fuel i := by
  intro fuel
  induction fuel with
  | zero =>
    intro i
    rfl
  | succ f ih =>
    intro i
    simp only [runLoopAux, h i, ih (i + 1)]

theorem run_ai_agent_all_fail {o : Nat → AttemptResult}
    (h : ∀ i, attemptOutcome (o i) = Option.none) :
    run_ai_agent o = ⟨Option.none, [2, 4], 3⟩ := by
  simp only [run_ai_agent, runLoopAux, h 0, h 1, h 2]
  rfl

theorem workflow_no_send_of_fail {o : Nat → AttemptResult}
    (h : (run_ai_agent o).result = Option.none)
    (fetched : Option (String × String × String)) :
    ∀ t s b, main_agent_workflow fetched o ≠ RunResult.sent t s b := by
  intro t s b
  cases fetched with
  | none => simp [main_agent_workflow]
  | some triple =>
    obtain ⟨fe, su, bo⟩ := triple
    by_cases hfe : fe = ""
    · simp [main_agent_workflow, hfe]
    · simp [main_agent_workflow, hfe, h]

theorem workflow_sent_subject {fe su bo t s b : String} {o : Nat → AttemptResult}
    (h : main_agent_workflow (some (fe, su, bo)) o = RunResult.sent t s b) :
    t = fe ∧ s = "Re: " ++ su := by
  by_cases hfe : fe = ""
  · simp only [main_agent_workflow, if_pos hfe] at h
    exact RunResult.noConfusion h
  · cases hres : (run_ai_agent o).result with
    | none =>
      simp only [main_agent_workflow, if_neg hfe, hres] at h
      exact RunResult.noConfusion h
    | some v =>
      simp only [main_agent_workflow, if_neg hfe, hres] at h
      by_cases hv : v.truthy = false
      · rw [if_pos hv] at h
        exact RunResult.noConfusion h
      · rw [if_neg hv] at h
        cases v with
        | dict kvs =>
          have h2 : (match reply_router (coerceBool (dictGet kvs "is_technical" (PyVal.bool false)))
              (coerceBool (dictGet kvs "request_meeting" (PyVal.bool false)))
              (dictGet kvs "simple_reply_draft" (PyVal.str SAFE_DEFAULT_REPLY))
              (dictGet kvs "non_technical_reply_draft" (PyVal.str SAFE_DEFAULT_REPLY))
              (dictGet kvs "meeting_suggestion_draft" (PyVal.str SAFE_DEFAULT_REPLY)) with
            | PyVal.str d => RunResult.sent fe ("Re: " ++ su) (format_reply d)
            | _ => RunResult.typeError) = RunResult.sent t s b := h
          cases hr : reply_router (coerceBool (dictGet kvs "is_technical" (PyVal.bool false)))
              (coerceBool (dictGet kvs "request_meeting" (PyVal.bool false)))
              (dictGet kvs "simple_reply_draft" (PyVal.str SAFE_DEFAULT_REPLY))
              (dictGet kvs "non_technical_reply_draft" (PyVal.str SAFE_DEFAULT_REPLY))
              (dictGet kvs "meeting_suggestion_draft" (PyVal.str SAFE_DEFAULT_REPLY)) with
          | str d =>
            rw [hr] at h2
            injection h2 with h1 hsub _
            exact ⟨h1.symm, hsub.symm⟩
          | null =>
            rw [hr] at h2
            exact RunResult.noConfusion h2
          | bool x =>
            rw [hr] at h2
            exact RunResult.noConfusion h2
          | int x =>
            rw [hr] at h2
            exact RunResult.noConfusion h2
          | list x =>
            rw [hr] at h2
            exact RunResult.noConfusion h2
          | dict x =>
            rw [hr] at h2
            exact RunResult.noConfusion h2
        | null => exact RunResult.noConfusion h
        | bool x => exact RunResult.noConfusion h
        | int x => exact RunResult.noConfusion h
        | str x => exact RunResult.noConfusion h
        | list x => exact RunResult.noConfusion h

/-- C1: for every normalized classification result the reply router
selects exactly the draft given by the decision table — technical and
meeting requested selects the meeting draft, technical without meeting
selects the simple draft, non-technical selects the non-technical draft
regardless of the meeting flag — and no selection outside the three
drafts is reachable for any inputs. -/
theorem C1_router_decision_table (s n m rm it : PyVal) :
    reply_router (PyVal.bool true) (PyVal.bool true) s n m = m
  ∧ reply_router (PyVal.bool true) (PyVal.bool false) s n m = s
  ∧ reply_router (PyVal.bool false) rm s n m = n
  ∧ (reply_router it rm s n m = m ∨ reply_router it rm s n m = s
      ∨ reply_router it rm s n m = n) := by
  refine ⟨rfl, rfl, rfl, ?_⟩
  unfold reply_router
  by_cases h1 : it.truthy = true
  · by_cases h2 : rm.truthy = true
    · rw [if_pos h1, if_pos h2]
      exact Or.inl rfl
    · rw [if_pos h1, if_neg h2]
      exact Or.inr (Or.inl rfl)
  · rw [if_neg h1]
    exact Or.inr (Or.inr rfl)

/-- C2 counterexample: the normaliser does not map the JSON number one to
false — it passes it through unchanged, it is truthy, and the router then
takes the technical branch for it. -/
theorem C2_counterexample_nonstring_passthrough :
    coerceBool (dictGet c2Obj "is_technical" (PyVal.bool false)) = PyVal.int 1
  ∧ coerceBool (dictGet c2Obj "is_technical" (PyVal.bool false)) ≠ PyVal.bool false
  ∧ (coerceBool (dictGet c2Obj "is_technical" (PyVal.bool false))).truthy = true
  ∧ reply_router (coerceBool (dictGet c2Obj "is_technical" (PyVal.bool false)))
      (PyVal.bool false) (PyVal.str "S") (PyVal.str "N") (PyVal.str "M")
      = PyVal.str "S" := by
  refine ⟨rfl, ?_, rfl, rfl⟩
  intro h
  exact PyVal.noConfusion h

/-- C2 amended: the boolean-field normaliser keeps native booleans,
coerces any string case-insensitively (the text true gives true, every
other string gives false), and leaves every non-string non-boolean value
unchanged; such a value is then judged by Python truthiness in the
router, so null and zero behave as false while a nonzero number behaves
as true. -/
theorem C2_bool_normalisation_amended (b : Bool) (s : String) (n : Int) :
    coerceBool (PyVal.bool b) = PyVal.bool b
  ∧ coerceBool (PyVal.str s) = PyVal.bool (pyLower s == "true")
  ∧ coerceBool (PyVal.str "TRUE") = PyVal.bool true
  ∧ coerceBool (PyVal.str "FaLsE") = PyVal.bool false
  ∧ coerceBool (PyVal.str "banana") = PyVal.bool false
  ∧ coerceBool PyVal.null = PyVal.null
  ∧ PyVal.null.truthy = false
  ∧ coerceBool (PyVal.int n) = PyVal.int n
  ∧ (PyVal.int n).truthy = decide (n ≠ 0) :=
  ⟨rfl, rfl, rfl, rfl, rfl, rfl, rfl, rfl, rfl⟩

/-- C3 counterexample: a present null draft field is not replaced by the
safe default — it is returned verbatim by the lookup, and a run whose
routed draft is null ends in the uncaught formatter type error instead of
sending the safe-default reply. -/
theorem C3_counterexample_null_draft_crashes :
    dictGet [("simple_reply_draft", PyVal.null)] "simple_reply_draft"
        (PyVal.str SAFE_DEFAULT_REPLY) = PyVal.null
  ∧ main_agent_workflow (some ("sender@example.com", "Subj", "Body")) c3Oracle
      = RunResult.typeError
  ∧ RunResult.typeError ≠ RunResult.sent "sender@example.com" "Re: Subj"
      (format_reply SAFE_DEFAULT_REPLY) :=
  ⟨rfl, rfl, by decide⟩

/-- C3 amended: the safe default is substituted exactly when the field
key is absent from the parsed object; a present value — null or
non-string included — is taken verbatim, so only absence triggers the
default. -/
theorem C3_string_field_default_amended (kvs kvs2 : List (String × PyVal))
    (key : String) (dflt w : PyVal)
    (h1 : kvs.reverse.lookup key = Option.none)
    (h2 : kvs2.reverse.lookup key = some w) :
    dictGet kvs key dflt = dflt ∧ dictGet kvs2 key dflt = w := by
  constructor
  · rw [dictGet, h1]
    rfl
  · rw [dictGet, h2]
    rfl

/-- Witness for the amended C3 statement at concrete objects. -/
theorem C3_string_field_default_amended_witness :
    dictGet [] "simple_reply_draft" (PyVal.str SAFE_DEFAULT_REPLY)
      = PyVal.str SAFE_DEFAULT_REPLY
  ∧ dictGet [("simple_reply_draft", PyVal.null)] "simple_reply_draft"
      (PyVal.str SAFE_DEFAULT_REPLY) = PyVal.null :=
  C3_string_field_default_amended [] [("simple_reply_draft", PyVal.null)]
    "simple_reply_draft" (PyVal.str SAFE_DEFAULT_REPLY) PyVal.null rfl rfl

/-- C4: whenever the first open brace of the raw text comes before its
last close brace, the extractor returns exactly the greedy span between
them; and on a response made of prose, one well-formed JSON object and
trailing prose, the extraction step returns exactly that object. -/
theorem C4_extractor_greedy_span {cs : List Char} {i j : Nat}
    (hi : firstIdxOf '\x7b' cs = some i) (hj : lastIdxOf '\x7d' cs = some j)
    (hij : i < j) :
    extractSpan cs = some ((cs.drop i).take (j - i + 1))
  ∧ attemptOutcome (AttemptResult.success goodRaw) = some (PyVal.dict goodObj) :=
  ⟨extractSpan_eq hi hj hij, rfl⟩

/-- Witness for C4 at a concrete text whose first open brace is at index
four and whose last close brace is at index nine. -/
theorem C4_extractor_greedy_span_witness :
    extractSpan "say \x7b1: 2\x7d ok".data
      = some (("say \x7b1: 2\x7d ok".data.drop 4).take (9 - 4 + 1))
  ∧ attemptOutcome (AttemptResult.success goodRaw) = some (PyVal.dict goodObj) :=
  C4_extractor_greedy_span rfl rfl (by decide)

/-- C5 counterexample: after the first and second failed attempts the
invoker sleeps two then four seconds, not one then two as the claim
enumerates. -/
theorem C5_counterexample_backoff_schedule :
    (run_ai_agent failOracle).sleeps = [2, 4]
  ∧ (run_ai_agent failOracle).sleeps ≠ [1, 2] :=
  ⟨rfl, by decide⟩

/-- C5 amended: the invoker makes at most three attempts; when every
attempt fails it makes exactly three, sleeping two to the power of the
attempt index plus one seconds between them — two seconds then four —
returns no result, and the run aborts without any send attempt. -/
theorem C5_retry_policy_amended (o : Nat → AttemptResult)
    (hfail : ∀ i, attemptOutcome (o i) = Option.none) :
    (∀ o2 : Nat → AttemptResult, (run_ai_agent o2).attempts ≤ 3)
  ∧ (run_ai_agent o).attempts = 3
  ∧ (run_ai_agent o).sleeps = [2, 4]
  ∧ (run_ai_agent o).result = Option.none
  ∧ (∀ fetched t s b, main_agent_workflow fetched o ≠ RunResult.sent t s b) := by
  have hall := run_ai_agent_all_fail hfail
  refine ⟨fun o2 => runLoopAux_attempts_le o2 3 0, ?_, ?_, ?_, ?_⟩
  · rw [hall]
  · rw [hall]
  · rw [hall]
  · intro fetched t s b
    exact workflow_no_send_of_fail (by rw [hall]) fetched t s b

/-- Witness for the amended C5 statement on the all-failing oracle. -/
theorem C5_retry_policy_amended_witness :
    (run_ai_agent failOracle).attempts = 3
  ∧ (run_ai_agent failOracle).sleeps = [2, 4]
  ∧ (run_ai_agent failOracle).result = Option.none
  ∧ main_agent_workflow (some ("sender@example.com", "Subj", "Body")) failOracle
      ≠ RunResult.sent "sender@example.com" "Re: Subj" "Hello,\n\n" := by
  have h := C5_retry_policy_amended failOracle (fun i => rfl)
  exact ⟨h.2.1, h.2.2.1, h.2.2.2.1, h.2.2.2.2 _ _ _ _⟩

/-- C6: an attempt whose response arrives but yields no brace span or an
unparseable span is indistinguishable from a transport failure to the
retry loop — substituting one for the other changes neither the result
nor the sleeps nor the attempt count of the whole invocation. -/
theorem C6_extraction_failures_retry (o : Nat → AttemptResult) (k : Nat) (raw : String)
    (hbad : extractSpan (pyStrip raw.data) = Option.none
        ∨ ∃ span, extractSpan (pyStrip raw.data) = some span
            ∧ json_loads (String.mk span) = Option.none) :
    run_ai_agent (fun i => if i = k then AttemptResult.success raw else o i)
      = run_ai_agent (fun i => if i = k then AttemptResult.failure else o i) := by
  have hout : attemptOutcome (AttemptResult.success raw) = Option.none := by
    rcases hbad with h1 | ⟨span, h1, h2⟩
    · simp [attemptOutcome, h1]
    · simp [attemptOutcome, h1, h2]
  refine runLoopAux_congr (fun i => ?_) 3 0
  by_cases hik : i = k
  · subst hik
    rw [if_pos rfl, if_pos rfl, hout]
    rfl
  · rw [if_neg hik, if_neg hik]

/-- Witness for C6: a first attempt answering prose without JSON behaves
exactly like a first-attempt transport failure. -/
theorem C6_extraction_failures_retry_witness :
    run_ai_agent c6BadOracle = run_ai_agent c6FailOracle :=
  C6_extraction_failures_retry failOracle 0 noJsonRaw (Or.inl rfl)

/-- C7: the formatter prepends the literal salutation exactly when the
stripped and trimmed draft does not start with a greeting token, the sent
subject is the literal Re prefix on the original subject, and the meeting
draft of the scenario formats to the expected body. -/
theorem C7_formatter (d d2 fe su bo t s b : String) (o : Nat → AttemptResult)
    (hno : startsWithGreeting (pyStrip (stripTags d.data)) = false)
    (hyes : startsWithGreeting (pyStrip (stripTags d2.data)) = true)
    (hsent : main_agent_workflow (some (fe, su, bo)) o = RunResult.sent t s b) :
    format_reply d = String.mk (HELLO_LINE ++ pyStrip (stripTags d.data))
  ∧ format_reply d2 = String.mk (pyStrip (stripTags d2.data))
  ∧ s = "Re: " ++ su
  ∧ format_reply "Are you free Monday?" = "Hello,\n\nAre you free Monday?" := by
  refine ⟨?_, ?_, (workflow_sent_subject hsent).2, by decide⟩
  · simp [format_reply, formatBody, hno]
  · simp [format_reply, formatBody, hyes]

/-- Witness for C7 on the scenario draft, a greeting-led draft, and a
concrete successful run. -/
theorem C7_formatter_witness :
    format_reply "Are you free Monday?"
      = String.mk (HELLO_LINE ++ pyStrip (stripTags "Are you free Monday?".data))
  ∧ format_reply "Hi there" = String.mk (pyStrip (stripTags "Hi there".data))
  ∧ "Re: Subj" = "Re: " ++ "Subj"
  ∧ format_reply "Are you free Monday?" = "Hello,\n\nAre you free Monday?" :=
  C7_formatter "Are you free Monday?" "Hi there" "sender@example.com" "Subj" "Body"
    "sender@example.com" "Re: Subj" "Hello,\n\nAll good." goodOracle
    (by decide) (by decide) rfl

/-- C8 counterexample: the formatter is not idempotent — the empty draft
formats to the bare salutation line, and re-formatting that body trims
its trailing blank lines and returns a different string. -/
theorem C8_counterexample_not_idempotent :
    format_reply "" = "Hello,\n\n"
  ∧ format_reply (format_reply "") = "Hello,"
  ∧ format_reply (format_reply "") ≠ format_reply "" :=
  ⟨by decide, by decide, by decide⟩

/-- C8 amended: every formatted body is free of angle-bracket tag
matches, and the formatter is idempotent on every draft whose stripped
and trimmed text is non-empty; the empty case is the sole exception. -/
theorem C8_no_tags_and_idempotent_amended (d e : String)
    (hne : pyStrip (stripTags e.data) ≠ []) :
    hasTag (format_reply d).data = false
  ∧ format_reply (format_reply e) = format_reply e := by
  constructor
  · exact hasTag_formatBody d.data
  · show String.mk (formatBody (formatBody e.data)) = String.mk (formatBody e.data)
    rw [formatBody_idem hne]

/-- Witness for the amended C8 statement on drafts containing markup. -/
theorem C8_no_tags_and_idempotent_amended_witness :
    hasTag (format_reply "a <b>bold</b> move").data = false
  ∧ format_reply (format_reply "Check <br> this") = format_reply "Check <br> this" :=
  C8_no_tags_and_idempotent_amended "a <b>bold</b> move" "Check <br> this" (by decide)

/-- C9: the run never attempts a send without a classified message — a
fetch returning none exits with no send for every oracle, and when every
model attempt fails the run with a fetched message never reaches a send
either. -/
theorem C9_no_send_without_classification (o : Nat → AttemptResult)
    (hfail : ∀ i, attemptOutcome (o i) = Option.none) :
    (∀ o2 : Nat → AttemptResult, main_agent_workflow Option.none o2 = RunResult.noMessage)
  ∧ (∀ fe su bo t s b : String,
      main_agent_workflow (some (fe, su, bo)) o ≠ RunResult.sent t s b) := by
  refine ⟨fun o2 => rfl, ?_⟩
  intro fe su bo t s b
  exact workflow_no_send_of_fail (by rw [run_ai_agent_all_fail hfail]) _ t s b

/-- Witness for C9 on the all-failing oracle and a fetched message. -/
theorem C9_no_send_without_classification_witness :
    main_agent_workflow Option.none goodOracle = RunResult.noMessage
  ∧ main_agent_workflow (some ("sender@example.com", "Subj", "Body")) failOracle
      ≠ RunResult.sent "sender@example.com" "Re: Subj" "Hello,\n\n" := by
  have h := C9_no_send_without_classification failOracle (fun i => rfl)
  exact ⟨h.1 goodOracle, h.2 _ _ _ _ _ _⟩

/-- C10: the formatted body is never empty; a draft that strips and trims
to nothing formats to exactly the salutation line, and a present empty
draft — which bypasses the absent-field default — is sent as exactly that
salutation line. -/
theorem C10_body_never_empty (d : String) (hd : pyStrip (stripTags d.data) = []) :
    (∀ e : String, format_reply e ≠ "")
  ∧ format_reply d = "Hello,\n\n"
  ∧ main_agent_workflow (some ("sender@example.com", "Subj", "Body")) c10Oracle
      = RunResult.sent "sender@example.com" "Re: Subj" "Hello,\n\n" := by
  refine ⟨?_, ?_, rfl⟩
  · intro e he
    apply formatBody_ne_nil e.data
    have hdata : (format_reply e).data = ("" : String).data := by rw [he]
    simpa [format_reply] using hdata
  · have hg : startsWithGreeting ([] : List Char) = false := by decide
    simp [format_reply, formatBody, hd, hg]
    decide

/-- Witness for C10 on a draft that is only markup and whitespace. -/
theorem C10_body_never_empty_witness :
    format_reply "Hello,\n\n" ≠ ""
  ∧ format_reply " <br> " = "Hello,\n\n"
  ∧ main_agent_workflow (some ("sender@example.com", "Subj", "Body")) c10Oracle
      = RunResult.sent "sender@example.com" "Re: Subj" "Hello,\n\n" := by
  have h := C10_body_never_empty " <br> " (by decide)
  exact ⟨h.1 "Hello,\n\n", h.2.1, h.2.2⟩
